import Mathlib

/-!
Shallow embedding of the pagination logic of `picture_box`:

* `listPicturesOk` (mock data provider, `src/unnamed/part_000`) — slices a
  fixed 54-item dataset into pages of ten;
* the `createEffect` page-window computation and the previous/next click
  guards of `src/frontend/src/components/Pagination.tsx`.

Numbers: the component reads its inputs through the JavaScript `| 0` coercion,
so `total`, `page_size` and `current` are integers; we model them as `Int`
(all intermediate arithmetic is exact in double precision for this range, and
`Math.ceil(total / page_size)` is the exact mathematical ceiling for int32
operands when `page_size > 0`).
-/

namespace PictureBox

/-- Modelled from the spec: the pagination descriptor `{current, page_size,
total}` — `models.ts` is not among the provided sources; the spec defines the
descriptor as this triple of integers. -/
structure Pagination where
  current : Int
  page_size : Int
  total : Int
  deriving DecidableEq

/-- Modelled from the spec: a `Page` / `ListResponse` pairs the sliced item
list with a pagination descriptor (`models.ts` is not among the provided
sources). -/
structure ListResponse (α : Type) where
  list : List α
  pagination : Pagination
  deriving DecidableEq

/-- Modelled from the spec: an `Item` / `Resolve` is an opaque record mapping
named resolution variants to asset URIs (`models.ts` is not among the provided
sources).  `part_000` builds each one from a JSON literal with keys `middle`,
`origin`, `s`, one key named after the loop index, `hello` and `hel`; the
dynamic key is kept here as the `idx` field. -/
structure Resolve where
  middle : String
  origin : String
  s : String
  idx : Nat
  idxVal : String
  hello : String
  hel : String
  deriving DecidableEq

/-- Bundled asset URI imported as `m` (the actual bundler-generated URL string
is irrelevant: nothing below depends on its value). -/
def mAsset : String := "m.webp"

/-- Bundled asset URI imported as `origin`. -/
def originAsset : String := "origin.jpg"

/-- Bundled asset URI imported as `s`. -/
def sAsset : String := "s.webp"

/-- Bundled asset URI imported as `xs`. -/
def xsAsset : String := "xs.webp"

/-- `const length = 54` from `part_000`: the dataset size. -/
def length : Nat := 54

/-- The module-level `resolves` array of `part_000`: `length = 54` items, the
`i`-th parsed from the JSON literal
`{"middle": m, "origin": origin, "s": s, "${i}": xs, "hello": xs, "hel": xs}`. -/
def resolves : List Resolve :=
  (List.range length).map fun i =>
    { middle := mAsset, origin := originAsset, s := sAsset,
      idx := i, idxVal := xsAsset, hello := xsAsset, hel := xsAsset }

/-- The `resolves.forEach` loop of `listPicturesOk`: walk the list with its
0-based index, pushing exactly the items whose index satisfies
`start ≤ index < end` (here `e` names the source's `end`, a reserved word).
The source's trailing `if (index > end) return;` returns from the callback,
which merely moves to the next iteration, so it does not affect the result.
Generic in the element type so the same slicing applies to any dataset. -/
def sliceIdx {α : Type} (start e : Int) : Nat → List α → List α
  | _, [] => []
  | i, v :: vs =>
    if start ≤ (i : Int) ∧ (i : Int) < e then v :: sliceIdx start e (i + 1) vs
    else sliceIdx start e (i + 1) vs

/-- `listPicturesOk` with its dataset made explicit: the source closes over
the module-level `resolves` and reports `total = length`, where `length` is
both the build-loop bound and hence the dataset's length. -/
def listPictures (data : List Resolve) (current : Int) : ListResponse Resolve :=
  let start := (current - 1) * 10
  let e := start + 10
  { list := sliceIdx start e 0 data,
    pagination := { current := current, page_size := 10, total := (data.length : Int) } }

/-- `listPicturesOk` from `part_000` (the `listPage` contract of the spec). -/
def listPicturesOk (current : Int) : ListResponse Resolve :=
  listPictures resolves current

/-- `Math.ceil(total / page_size)` as computed in the `createEffect`: for
`page_size > 0` this is the exact ceiling, written `-⌊(-total) / page_size⌋`
with floor (Euclidean) division. -/
def pageCountOf (total page_size : Int) : Int :=
  -(Int.ediv (-total) page_size)

/-- Ascending run of `n` consecutive integers starting at `a` — the
`for (let i = left; i <= right; i++) pageArray.push(i)` loop, indexed by the
number of iterations left. -/
def intRangeAux (a : Int) : Nat → List Int
  | 0 => []
  | n + 1 => a :: intRangeAux (a + 1) n

/-- Every integer from `a` to `b` inclusive, ascending (empty when `b < a`). -/
def intRange (a b : Int) : List Int :=
  intRangeAux a (b + 1 - a).toNat

/-- The page-window computation of the `createEffect` in `Pagination.tsx`;
the shadowing `let`s mirror the source's reassignment of `right` (when
`beforeOffset < 0`) and `left` (when `afterOffset < 0`). -/
def pageArray (total page_size current : Int) : List Int :=
  let pageCount := pageCountOf total page_size
  let beforeOffset := current - 5
  let left := max 1 beforeOffset
  let right := min (current + 4) pageCount
  let afterOffset := pageCount - current - 5
  let right := if beforeOffset < 0 then min pageCount (right - beforeOffset) else right
  let left := if afterOffset < 0 then max 1 (afterOffset + left) else left
  intRange left right

/-- The seven-step window algorithm exactly as §4.2 of the spec words it:
beforeOffset = current - 5; left = max(1, beforeOffset);
right = min(current + 4, pageCount); afterOffset = pageCount - current - 5;
if beforeOffset < 0 then right becomes min(pageCount, right - beforeOffset);
if afterOffset < 0 then left becomes max(1, afterOffset + left); finally every
integer from left to right inclusive is emitted ascending, with
pageCount = ceil(total / page_size). -/
def specPageWindow (total page_size current : Int) : List Int :=
  let pageCount := pageCountOf total page_size
  let beforeOffset := current - 5
  let left := max 1 beforeOffset
  let right := min (current + 4) pageCount
  let afterOffset := pageCount - current - 5
  let right2 := if beforeOffset < 0 then min pageCount (right - beforeOffset) else right
  let left2 := if afterOffset < 0 then max 1 (afterOffset + left) else left
  intRange left2 right2

/-- The previous-arrow `onClick` handler of `Pagination.tsx`: it returns early
when `current ≤ 1` (`none` — `props.pageSetter` is not called), otherwise the
setter receives the update `p ↦ p - 1` of the current page (`some` of the new
value). -/
def prevOnClick (current : Int) : Option Int :=
  if current ≤ 1 then none else some (current - 1)

/-- The next-arrow `onClick` handler of `Pagination.tsx`: it returns early
when `current ≥ pageCount` (the component-local `pageCount` set by the last
effect run), otherwise the setter receives `p ↦ p + 1`. -/
def nextOnClick (current pageCount : Int) : Option Int :=
  if pageCount ≤ current then none else some (current + 1)

/-! ### Helper lemmas -/

lemma intRangeAux_length (a : Int) (n : Nat) : (intRangeAux a n).length = n := by
  induction n generalizing a with
  | zero => rfl
  | succ n ih => simp [intRangeAux, ih]

lemma intRange_length (a b : Int) : (intRange a b).length = (b + 1 - a).toNat :=
  intRangeAux_length a (b + 1 - a).toNat

lemma mem_intRangeAux {x a : Int} {n : Nat} :
    x ∈ intRangeAux a n ↔ a ≤ x ∧ x < a + n := by
  induction n generalizing a with
  | zero => simp [intRangeAux]
  | succ n ih =>
    simp only [intRangeAux, List.mem_cons, ih]
    push_cast
    omega

lemma mem_intRange {x a b : Int} : x ∈ intRange a b ↔ a ≤ x ∧ x ≤ b := by
  rw [intRange, mem_intRangeAux]
  omega

lemma intRangeAux_chain (a : Int) (n : Nat) :
    (intRangeAux a n).Chain' fun p q => q = p + 1 := by
  induction n generalizing a with
  | zero => exact List.chain'_nil
  | succ n ih =>
    rcases n with _ | m
    · simp [intRangeAux]
    · rw [intRangeAux, intRangeAux]
      exact List.Chain'.cons rfl (ih (a + 1))

lemma intRange_chain (a b : Int) :
    (intRange a b).Chain' fun p q => q = p + 1 :=
  intRangeAux_chain a (b + 1 - a).toNat

lemma intRange_eq_nil {a b : Int} (h : b < a) : intRange a b = [] := by
  rw [intRange]
  have hz : (b + 1 - a).toNat = 0 := by omega
  rw [hz]
  rfl

/-- Unfolds the `let`-chain of `pageArray` into an explicit `intRange` whose
bounds carry the two conditional reassignments. -/
lemma pageArray_eq_intRange (total page_size current : Int) :
    pageArray total page_size current =
      intRange
        (if pageCountOf total page_size - current - 5 < 0 then
          max 1 (pageCountOf total page_size - current - 5 + max 1 (current - 5))
        else max 1 (current - 5))
        (if current - 5 < 0 then
          min (pageCountOf total page_size)
            (min (current + 4) (pageCountOf total page_size) - (current - 5))
        else min (current + 4) (pageCountOf total page_size)) := rfl

lemma pageCountOf_zero (page_size : Int) : pageCountOf 0 page_size = 0 := by
  have h : Int.ediv 0 page_size = 0 := Int.zero_ediv page_size
  rw [pageCountOf, neg_zero, h, neg_zero]

lemma resolves_length : resolves.length = 54 := by
  simp [resolves, length]

/-- The indexed `forEach` slicing is the sublist from 0-based position
`start` (clamped to 0) up to, but excluding, position `e`: a `drop` followed
by a `take`. -/
lemma sliceIdx_eq_drop_take {α : Type} (s e : Int) (hse : s ≤ e) :
    ∀ (d : List α) (i : Nat),
      sliceIdx s e i d
        = (d.drop (s - i).toNat).take ((e - i).toNat - (s - i).toNat) := by
  intro d
  induction d with
  | nil => intro i; simp [sliceIdx]
  | cons v vs ih =>
    intro i
    rw [sliceIdx]
    split_ifs with h
    · have h0 : (s - (i : Int)).toNat = 0 := by omega
      obtain ⟨k, hk⟩ : ∃ k, (e - (i : Int)).toNat = k + 1 :=
        ⟨(e - (i : Int)).toNat - 1, by omega⟩
      have h1 : (s - ((i : Nat) + 1 : Nat)).toNat = 0 := by push_cast; omega
      have h2 : (e - ((i : Nat) + 1 : Nat)).toNat = k := by push_cast; omega
      rw [ih (i + 1), h0, hk, h1, h2]
      simp
    · rcases (by omega : (i : Int) < s ∨ e ≤ (i : Int)) with hlt | hge
      · obtain ⟨m, hm⟩ : ∃ m, (s - (i : Int)).toNat = m + 1 :=
          ⟨(s - (i : Int)).toNat - 1, by omega⟩
        have h1 : (s - ((i : Nat) + 1 : Nat)).toNat = m := by push_cast; omega
        have h2 : (e - ((i : Nat) + 1 : Nat)).toNat - (s - ((i : Nat) + 1 : Nat)).toNat
            = (e - (i : Int)).toNat - (s - (i : Int)).toNat := by
          push_cast
          omega
        rw [ih (i + 1), h2, h1, hm, List.drop_succ_cons]
      · have h1 : (e - (i : Int)).toNat - (s - (i : Int)).toNat = 0 := by omega
        have h2 : (e - ((i : Nat) + 1 : Nat)).toNat - (s - ((i : Nat) + 1 : Nat)).toNat
            = 0 := by push_cast; omega
        rw [ih (i + 1), h1, h2]
        simp

/-- The list returned by `listPictures` is the `drop`/`take` slice of its
dataset at `start = (current - 1) * 10`, `end = start + 10`. -/
lemma listPicturesOk_list_eq (current : Int) :
    (listPicturesOk current).list
      = (resolves.drop ((current - 1) * 10).toNat).take
          (((current - 1) * 10 + 10).toNat - ((current - 1) * 10).toNat) := by
  have h := sliceIdx_eq_drop_take ((current - 1) * 10) ((current - 1) * 10 + 10)
    (by omega) resolves 0
  simpa [listPicturesOk, listPictures] using h

/-- The descriptor returned by `listPicturesOk` echoes the requested
`current` with the fixed `page_size = 10` and `total = 54`. -/
lemma listPicturesOk_pagination (current : Int) :
    (listPicturesOk current).pagination
      = { current := current, page_size := 10, total := 54 } := by
  simp [listPicturesOk, listPictures, resolves_length]

/-! ### Claim theorems -/

/-- C2: for every descriptor, the `createEffect` page window equals the
result of the spec's seven-step algorithm (`specPageWindow`): the two
computations agree step for step. -/
theorem pageArray_matches_spec_algorithm (total page_size current : Int) :
    specPageWindow total page_size current = pageArray total page_size current :=
  rfl

/-- C1 counterexample: with the descriptor `{current := 10, page_size := 10,
total := 120}` (so `pageCount = 12`, `page_size > 0`) the computed window is
`[2, …, 12]`, which contains 11 page numbers, not at most 10. -/
theorem pageArray_ten_bound_counterexample :
    (pageArray 120 10 10).length = 11 ∧ ¬(pageArray 120 10 10).length ≤ 10 := by
  decide

/-- C1 (amended): for every pagination descriptor with `page_size > 0` and
`total ≥ 0`, the page window computed by the `createEffect` contains at most
11 page numbers (the original bound of 10 is exceeded by exactly one when the
window is clipped at the right edge with `current ≥ 6`). -/
theorem pageArray_length_le_eleven (total page_size current : Int)
    (hps : 0 < page_size) (ht : 0 ≤ total) :
    (pageArray total page_size current).length ≤ 11 := by
  rw [pageArray_eq_intRange, intRange_length]
  generalize pageCountOf total page_size = pc
  split_ifs <;> omega

/-- Witness for C1 (amended) at the descriptor `{current := 3,
page_size := 10, total := 54}`. -/
theorem pageArray_length_le_eleven_witness :
    (pageArray 54 10 3).length ≤ 11 :=
  pageArray_length_le_eleven 54 10 3 (by decide) (by decide)

/-- C4: for every descriptor with `page_size > 0` and `total ≥ 0`, every
element of the page window lies in `[1, pageCount]`, and the window is a
contiguous strictly ascending run (each element is its predecessor plus
one). -/
theorem pageArray_valid_window (total page_size current : Int)
    (hps : 0 < page_size) (ht : 0 ≤ total) :
    (∀ n ∈ pageArray total page_size current,
        1 ≤ n ∧ n ≤ pageCountOf total page_size)
      ∧ (pageArray total page_size current).Chain' (fun p q => q = p + 1) := by
  constructor
  · intro n hn
    rw [pageArray_eq_intRange, mem_intRange] at hn
    set pc := pageCountOf total page_size
    split_ifs at hn <;> omega
  · rw [pageArray_eq_intRange]
    exact intRange_chain _ _

/-- Witness for C4 at the descriptor `{current := 1, page_size := 10,
total := 54}` and window element 3. -/
theorem pageArray_valid_window_witness :
    (1 ≤ (3 : Int) ∧ (3 : Int) ≤ pageCountOf 54 10)
      ∧ (pageArray 54 10 1).Chain' (fun p q => q = p + 1) :=
  ⟨(pageArray_valid_window 54 10 1 (by decide) (by decide)).1 3 (by decide),
    (pageArray_valid_window 54 10 1 (by decide) (by decide)).2⟩

/-- C10: whenever `pageCount ≥ 1`, the computed page window is nonempty for
every integer `current` (including `current < 1` and `current > pageCount`):
after the widening steps `left ≤ right` holds, so at least one page number is
emitted. -/
theorem pageArray_nonempty_of_pageCount_pos (total page_size current : Int)
    (hpc : 1 ≤ pageCountOf total page_size) :
    pageArray total page_size current ≠ [] := by
  have hlen : 1 ≤ (pageArray total page_size current).length := by
    rw [pageArray_eq_intRange, intRange_length]
    set pc := pageCountOf total page_size
    split_ifs <;> omega
  intro hnil
  rw [hnil] at hlen
  simp at hlen

/-- Witness for C10 at the descriptor `{current := -7, page_size := 10,
total := 54}` (an out-of-range current). -/
theorem pageArray_nonempty_of_pageCount_pos_witness :
    pageArray 54 10 (-7) ≠ [] :=
  pageArray_nonempty_of_pageCount_pos 54 10 (-7) (by decide)

/-- C7: when `total = 0` the page count is 0 and the window is the empty
sequence for every integer `current`; and the list slicing applied to an
empty dataset returns an empty list for page 1. -/
theorem window_empty_of_total_zero :
    (∀ page_size current : Int, 0 < page_size → pageArray 0 page_size current = [])
      ∧ (listPictures [] 1).list = [] := by
  constructor
  · intro page_size current hps
    rw [pageArray_eq_intRange, pageCountOf_zero]
    apply intRange_eq_nil
    split_ifs <;> omega
  · rfl

/-- Witness for C7 at `page_size = 10`, `current = 5`. -/
theorem window_empty_of_total_zero_witness :
    pageArray 0 10 5 = [] :=
  window_empty_of_total_zero.1 10 5 (by decide)

/-- C8: the previous control calls the setter with `current - 1` exactly when
`current > 1` and otherwise does nothing (`none`), and the next control calls
it with `current + 1` exactly when `current < pageCount` and otherwise does
nothing. -/
theorem nav_click_guards :
    (∀ current : Int, prevOnClick current = some (current - 1) ↔ 1 < current)
      ∧ (∀ current : Int, prevOnClick current = none ↔ current ≤ 1)
      ∧ (∀ current pageCount : Int,
          nextOnClick current pageCount = some (current + 1) ↔ current < pageCount)
      ∧ (∀ current pageCount : Int,
          nextOnClick current pageCount = none ↔ pageCount ≤ current) := by
  refine ⟨fun c => ?_, fun c => ?_, fun c pc => ?_, fun c pc => ?_⟩
  · by_cases h : c ≤ 1 <;> simp [prevOnClick, h] <;> omega
  · by_cases h : c ≤ 1 <;> simp [prevOnClick, h]
  · by_cases h : pc ≤ c <;> simp [nextOnClick, h] <;> omega
  · by_cases h : pc ≤ c <;> simp [nextOnClick, h]

/-- Witness for C8: at `current = 2`, `pageCount = 6` both arrows fire. -/
theorem nav_click_guards_witness :
    prevOnClick 2 = some (2 - 1) ∧ nextOnClick 2 6 = some (2 + 1) :=
  ⟨(nav_click_guards.1 2).mpr (by decide),
    (nav_click_guards.2.2.1 2 6).mpr (by decide)⟩

/-- C3: for every integer `current`, `listPicturesOk` returns exactly the
dataset items whose 0-based index `i` satisfies `start ≤ i < start + 10` with
`start = (current - 1) * 10`, in dataset order (a `drop`/`take` slice of the
dataset); when `start ≥ total = 54` the list is empty; and the returned
descriptor is `{current, page_size := 10, total := 54}` with the requested
`current` echoed back unmodified. -/
theorem listPicturesOk_contract (current : Int) :
    (listPicturesOk current).list
        = (resolves.drop ((current - 1) * 10).toNat).take
            (((current - 1) * 10 + 10).toNat - ((current - 1) * 10).toNat)
      ∧ ((54 : Int) ≤ (current - 1) * 10 → (listPicturesOk current).list = [])
      ∧ (listPicturesOk current).pagination
          = { current := current, page_size := 10, total := 54 } := by
  refine ⟨listPicturesOk_list_eq current, fun hge => ?_, listPicturesOk_pagination current⟩
  rw [listPicturesOk_list_eq current]
  have hdrop : resolves.drop ((current - 1) * 10).toNat = [] := by
    apply List.drop_eq_nil_of_le
    rw [resolves_length]
    omega
  rw [hdrop, List.take_nil]

/-- Witness for C3 at `current = 7` (`start = 60 ≥ 54`). -/
theorem listPicturesOk_contract_witness :
    (listPicturesOk 7).list = [] :=
  (listPicturesOk_contract 7).2.1 (by decide)

/-- C9: for every `current ≤ 0` the returned list is empty (`end =
10 * current ≤ 0` excludes every 0-based index) while the descriptor still
echoes the requested `current` with `page_size = 10`, `total = 54`. -/
theorem listPicturesOk_nonpos_current_empty (current : Int) (hc : current ≤ 0) :
    (listPicturesOk current).list = []
      ∧ (listPicturesOk current).pagination
        = { current := current, page_size := 10, total := 54 } := by
  refine ⟨?_, listPicturesOk_pagination current⟩
  rw [listPicturesOk_list_eq current]
  have h1 : ((current - 1) * 10 + 10).toNat - ((current - 1) * 10).toNat = 0 := by
    omega
  rw [h1]
  exact List.take_zero _

/-- Witness for C9 at `current = -3`. -/
theorem listPicturesOk_nonpos_current_empty_witness :
    (listPicturesOk (-3)).list = []
      ∧ (listPicturesOk (-3)).pagination
        = { current := -3, page_size := 10, total := 54 } :=
  listPicturesOk_nonpos_current_empty (-3) (by decide)

/-- C6: for `current ≤ 0` the slice start `(current - 1) * 10` is nonpositive
and the behavior degenerates to taking the dataset prefix up to `end` (the
slice condition `index ≥ start` holds for every index, so the list is
`resolves.take end.toNat`); in particular `listPicturesOk 0` and
`listPicturesOk 1` share their leading items — the former's list is a prefix
of the latter's. -/
theorem listPicturesOk_degenerate_low_current :
    (∀ current : Int, current ≤ 0 →
        (current - 1) * 10 ≤ 0
          ∧ (listPicturesOk current).list
            = resolves.take ((current - 1) * 10 + 10).toNat)
      ∧ ∃ t, (listPicturesOk 1).list = (listPicturesOk 0).list ++ t := by
  constructor
  · intro current hc
    refine ⟨by omega, ?_⟩
    rw [listPicturesOk_list_eq current]
    have h0 : ((current - 1) * 10).toNat = 0 := by omega
    rw [h0]
    simp
  · refine ⟨(listPicturesOk 1).list, ?_⟩
    have h0 : (listPicturesOk 0).list = [] := by decide
    rw [h0]
    rfl

/-- Witness for C6 at `current = 0`. -/
theorem listPicturesOk_degenerate_low_current_witness :
    ((0 : Int) - 1) * 10 ≤ 0
      ∧ (listPicturesOk 0).list = resolves.take (((0 : Int) - 1) * 10 + 10).toNat :=
  listPicturesOk_degenerate_low_current.1 0 (by decide)

/-- C5: with the fixed dataset (`total = 54`, `page_size = 10`,
`pageCount = 6`) every page `1 ≤ current ≤ 6` has 10 items except the last,
which has `54 - 10 * 5 = 4` — the items at 0-based indices 50–53; and page 7
is empty. -/
theorem listPicturesOk_page_lengths :
    (∀ current : Int, 1 ≤ current → current ≤ 6 →
        (listPicturesOk current).list.length = if current = 6 then 4 else 10)
      ∧ (listPicturesOk 1).list.length = 10
      ∧ (listPicturesOk 6).list.length = 4
      ∧ (listPicturesOk 6).list = (resolves.drop 50).take 4
      ∧ (listPicturesOk 7).list.length = 0 := by
  refine ⟨?_, by decide, by decide, by decide, by decide⟩
  intro current h1 h6
  interval_cases current <;> decide

/-- Witness for C5 at `current = 6` (the short last page). -/
theorem listPicturesOk_page_lengths_witness :
    (listPicturesOk 6).list.length = if (6 : Int) = 6 then 4 else 10 :=
  listPicturesOk_page_lengths.1 6 (by decide) (by decide)

end PictureBox
